import Mathlib

/-!
Verification of the voxdrop transcription-history core
(`src/voxdrop/history.py`) and the transcriber boundary
(`src/voxdrop/transcriber.py`), as a shallow embedding in Lean 4.

Python values coming out of `json.load` are dynamically typed, so the
embedding represents JSON data with an inductive `Json` type and keeps the
fields of an in-memory `TranscriptionRecord` as `Json` values, exactly as a
Python dataclass built via `TranscriptionRecord(**record)` would hold
whatever the file contained.  The well-typed construction path
(`TranscriptionRecord.create`) always produces string/list/int payloads.

Wall-clock inputs (`uuid.uuid4()`, `datetime.now().isoformat()`) are passed
in as explicit parameters; disk state is a `FileState` value carried in the
manager structure, and each mutating operation additionally returns the
list of file writes it performed.
-/

/-- JSON values as produced by Python's `json.load`. -/
inductive Json where
  | null : Json
  | bool (b : Bool) : Json
  | num (n : Int) : Json
  | str (s : String) : Json
  | arr (elems : List Json) : Json
  | obj (fields : List (String × Json)) : Json

/-- The state of the storage file: absent, present with parseable JSON
content, or present but unparseable (raises `json.JSONDecodeError`). -/
inductive FileState where
  | missing : FileState
  | content (j : Json) : FileState
  | garbage : FileState

/-- Python whitespace characters stripped by `str.strip()` (ASCII range). -/
def isPyWhitespace (c : Char) : Bool :=
  c = ' ' ∨ c = '\t' ∨ c = '\n' ∨ c = '\x0d' ∨ c = '\x0b' ∨ c = '\x0c'

/-- `str.strip()` on a list of characters. -/
def pyStrip (l : List Char) : List Char :=
  (l.dropWhile isPyWhitespace).reverse.dropWhile isPyWhitespace |>.reverse

/-- `text[:50].replace("\n", " ").strip()` from
`TranscriptionRecord.create` (history.py line 30). -/
def previewBase (text : String) : String :=
  ⟨pyStrip ((text.data.take 50).map (fun c => if c = '\n' then ' ' else c))⟩

/-- The full preview computation of `TranscriptionRecord.create`
(history.py lines 30-32): base transform, then `+ "..."` when the
original text exceeds 50 characters. -/
def computePreview (text : String) : String :=
  if text.length > 50 then previewBase text ++ "..." else previewBase text

/-- In-memory transcription record.  Fields hold `Json` values because
Python's `TranscriptionRecord(**record)` performs no runtime type check:
a record loaded from disk carries whatever the file contained. -/
structure TranscriptionRecord where
  id : Json
  text : Json
  preview : Json
  file_names : Json
  file_count : Json
  model : Json
  timestamp : Json

namespace TranscriptionRecord

/-- `TranscriptionRecord.create(text, file_names, model)` (history.py
lines 22-42).  The generated uuid and the `datetime.now().isoformat()`
timestamp are passed in explicitly. -/
def create (text : String) (file_names : List String) (model : String)
    (freshId timestamp : String) : TranscriptionRecord where
  id := .str freshId
  text := .str text
  preview := .str (computePreview text)
  file_names := .arr (file_names.map .str)
  file_count := .num file_names.length
  model := .str model
  timestamp := .str timestamp

end TranscriptionRecord

/-- Python `int()` applied to a (nonnegative-or-negative) rational:
truncation toward zero. -/
def pyIntTrunc (q : ℚ) : Int :=
  if 0 ≤ q then ⌊q⌋ else -⌊-q⌋

/-- `TranscriptionRecord.time_ago` (history.py lines 49-65) as a function
of the elapsed seconds `diff.total_seconds()` between now and the record's
timestamp. -/
def timeAgo (seconds : ℚ) : String :=
  if seconds < 60 then "just now"
  else if seconds < 3600 then toString (pyIntTrunc (seconds / 60)) ++ "m ago"
  else if seconds < 86400 then toString (pyIntTrunc (seconds / 3600)) ++ "h ago"
  else toString (pyIntTrunc (seconds / 86400)) ++ "d ago"

/-- The ordered field list of `dataclasses.asdict(record)` (dataclass
declaration order in history.py lines 14-20). -/
def recordToJson (r : TranscriptionRecord) : Json :=
  .obj [("id", r.id), ("text", r.text), ("preview", r.preview),
        ("file_names", r.file_names), ("file_count", r.file_count),
        ("model", r.model), ("timestamp", r.timestamp)]

/-- `json.dump([asdict(record) for record in history], f)` from
`HistoryManager._save` (history.py lines 106-110). -/
def serializeHistory (l : List TranscriptionRecord) : Json :=
  .arr (l.map recordToJson)

/-- The seven required field names of a `TranscriptionRecord`. -/
def recordFieldNames : List String :=
  ["id", "text", "preview", "file_names", "file_count", "model", "timestamp"]

/-- First value bound to `key` in a JSON object's field list (Python dicts
have unique keys, so first = only). -/
def lookupField (key : String) : List (String × Json) → Option Json
  | [] => none
  | (k, v) :: rest => if k = key then some v else lookupField key rest

/-- `TranscriptionRecord(**record)` (history.py line 101).  Succeeds iff
`record` is an object whose key set is exactly the seven dataclass fields
(a missing or unexpected keyword raises `TypeError`, and `**` of a
non-mapping raises `TypeError`); no runtime check is made on the TYPE of
any field value — the dataclass stores whatever was given. -/
def buildRecord : Json → Option TranscriptionRecord
  | .obj fields =>
    match lookupField "id" fields, lookupField "text" fields,
          lookupField "preview" fields, lookupField "file_names" fields,
          lookupField "file_count" fields, lookupField "model" fields,
          lookupField "timestamp" fields with
    | some i, some t, some p, some fn, some fc, some m, some ts =>
      if fields.all (fun kv => kv.1 ∈ recordFieldNames) then
        some ⟨i, t, p, fn, fc, m, ts⟩
      else none
    | _, _, _, _, _, _, _ => none
  | _ => none

/-- Build every record of a parsed JSON file, failing if any element
fails (the first `TypeError` aborts the list comprehension). -/
def buildRecords : List Json → Option (List TranscriptionRecord)
  | [] => some []
  | j :: rest =>
    match buildRecord j, buildRecords rest with
    | some r, some rs => some (r :: rs)
    | _, _ => none

/-- `HistoryManager._load` (history.py lines 92-104): missing file or any
caught exception (`json.JSONDecodeError`, `KeyError`, `TypeError`) yields
an empty history; a parseable array whose every element reconstructs
yields those records in stored order. -/
def loadHistory : FileState → List TranscriptionRecord
  | .missing => []
  | .garbage => []
  | .content (.arr elems) =>
    match buildRecords elems with
    | some rs => rs
    | none => []
  | .content _ => []

/-- The in-memory state of a `HistoryManager` together with its storage
file (the durable mirror).  `max_entries` is a Python `int`. -/
structure HistoryManager where
  max_entries : Int
  history : List TranscriptionRecord
  file : FileState

namespace HistoryManager

/-- `HistoryManager.__init__` (history.py lines 74-86): record the cap
and load from the given file state. -/
def init (max_entries : Int) (fs : FileState) : HistoryManager where
  max_entries := max_entries
  history := loadHistory fs
  file := fs

/-- Python list slice `l[:k]` for an `int` bound `k` (negative bounds
count from the end, clamped at zero). -/
def pySliceTake (k : Int) (l : List α) : List α :=
  if 0 ≤ k then l.take k.toNat else l.take (l.length - (-k).toNat)

/-- `if len(self._history) > self.max_entries: self._history =
self._history[: self.max_entries]` (history.py lines 134-135). -/
def saveTrim (max_entries : Int) (l : List TranscriptionRecord) :
    List TranscriptionRecord :=
  if (l.length : Int) > max_entries then pySliceTake max_entries l else l

/-- `HistoryManager.save` (history.py lines 112-138): create the record,
insert at index 0, trim when `len > max_entries`, persist, return the
record.  Returns the created record, the new state, and the file writes
performed. -/
def save (st : HistoryManager) (text : String) (file_names : List String)
    (model freshId timestamp : String) :
    TranscriptionRecord × HistoryManager × List Json :=
  (TranscriptionRecord.create text file_names model freshId timestamp,
   { st with
     history := saveTrim st.max_entries
       (TranscriptionRecord.create text file_names model freshId timestamp
         :: st.history),
     file := .content (serializeHistory (saveTrim st.max_entries
       (TranscriptionRecord.create text file_names model freshId timestamp
         :: st.history))) },
   [serializeHistory (saveTrim st.max_entries
     (TranscriptionRecord.create text file_names model freshId timestamp
       :: st.history))])

/-- `HistoryManager.get_all` (history.py lines 140-142): a copy of the
in-memory list, most recent first. -/
def get_all (st : HistoryManager) : List TranscriptionRecord :=
  st.history

/-- `record.id == record_id` for a Python `str` right-hand side: true iff
the stored id is an equal string (any non-string JSON value compares
unequal to a `str`, without error). -/
def idMatches (r : TranscriptionRecord) (record_id : String) : Bool :=
  match r.id with
  | .str s => s = record_id
  | _ => false

/-- `HistoryManager.get_by_id` (history.py lines 144-149): first record
whose id matches, if any. -/
def get_by_id (st : HistoryManager) (record_id : String) :
    Option TranscriptionRecord :=
  st.history.find? (fun r => idMatches r record_id)

/-- `del self._history[i]` at the first index whose record matches:
`none` when no record matches. -/
def removeFirst (record_id : String) :
    List TranscriptionRecord → Option (List TranscriptionRecord)
  | [] => none
  | r :: rest =>
    if idMatches r record_id then some rest
    else (removeFirst record_id rest).map (r :: ·)

/-- `HistoryManager.delete` (history.py lines 151-162): remove the first
matching record and persist, returning `true`; return `false` and touch
nothing when no record matches.  Also returns the file writes
performed. -/
def delete (st : HistoryManager) (record_id : String) :
    Bool × HistoryManager × List Json :=
  match removeFirst record_id st.history with
  | some h =>
    (true, { st with history := h, file := .content (serializeHistory h) },
     [serializeHistory h])
  | none => (false, st, [])

/-- `HistoryManager.clear` (history.py lines 164-167): empty the list and
persist. -/
def clear (st : HistoryManager) : HistoryManager × List Json :=
  ({ st with history := [], file := .content (serializeHistory []) },
   [serializeHistory []])

/-- `HistoryManager.__len__` (history.py lines 169-171). -/
def size (st : HistoryManager) : Nat :=
  st.history.length

end HistoryManager

/-- `str.strip()` on a `String`. -/
def pyStripStr (s : String) : String :=
  ⟨pyStrip s.data⟩

/-- `str.lower()`, character by character (ASCII). -/
def pyLower (s : String) : String :=
  ⟨s.data.map Char.toLower⟩

/-- An audio file path, abstracted to its display name and its
`pathlib.Path.suffix` (the final extension, dot included; empty when the
name has none). -/
structure AudioFile where
  name : String
  suffix : String

/-- `SUPPORTED_FORMATS` (transcriber.py line 8). -/
def SUPPORTED_FORMATS : List String :=
  [".opus", ".mp3", ".m4a", ".wav"]

/-- `is_supported_format` (transcriber.py lines 22-24):
`file_path.suffix.lower() in SUPPORTED_FORMATS`. -/
def is_supported_format (f : AudioFile) : Bool :=
  SUPPORTED_FORMATS.contains (pyLower f.suffix)

/-- `transcribe_files` (transcriber.py lines 27-72).  The Whisper engine
is abstracted by `engine`, giving the raw `result["text"]` for a file;
the function strips each result and combines.  `Except` models the
`ValueError("No supported audio files provided")` raise. -/
def transcribe_files (engine : AudioFile → String)
    (file_paths : List AudioFile) : Except String String :=
  if file_paths.isEmpty then .ok ""
  else
    let valid_files := file_paths.filter is_supported_format
    if valid_files.isEmpty then .error "No supported audio files provided"
    else
      let transcriptions := valid_files.map (fun f => pyStripStr (engine f))
      if transcriptions.length = 1 then .ok (transcriptions.headD "")
      else .ok (String.intercalate "\n\n" transcriptions)

/-- Ten consecutive saves into a store constructed with `max_entries = 5`
over a missing file: the `k`-th save stores text `text{k}`, file
`file{k}`, model `base`. -/
def exampleSaves : Nat → HistoryManager
  | 0 => HistoryManager.init 5 .missing
  | n + 1 =>
    ((exampleSaves n).save ("text" ++ toString (n + 1))
      ["file" ++ toString (n + 1)] "base"
      ("id" ++ toString (n + 1)) ("ts" ++ toString (n + 1))).2.1

/-- Three concrete records, as created for texts `a`, `b`, `c`. -/
def sampleRecords : List TranscriptionRecord :=
  [TranscriptionRecord.create "a" [] "base" "id1" "ts1",
   TranscriptionRecord.create "b" [] "base" "id2" "ts2",
   TranscriptionRecord.create "c" [] "base" "id3" "ts3"]

/-- A store constructed with `max_entries = 1` against a pre-existing
storage file holding three records. -/
def oversizedStore : HistoryManager :=
  HistoryManager.init 1 (.content (serializeHistory sampleRecords))

/-- A stored record object carrying all seven required keys but a number
(not a string) under `id`. -/
def mistypedRecordJson : Json :=
  .obj [("id", .num 5), ("text", .str "x"), ("preview", .str "x"),
        ("file_names", .arr []), ("file_count", .num 0),
        ("model", .str "base"), ("timestamp", .str "ts")]

section Lemmas

/-- Stripping never lengthens a character list. -/
theorem pyStrip_length_le (l : List Char) : (pyStrip l).length ≤ l.length := by
  unfold pyStrip
  calc ((l.dropWhile isPyWhitespace).reverse.dropWhile isPyWhitespace).reverse.length
      = ((l.dropWhile isPyWhitespace).reverse.dropWhile isPyWhitespace).length := by
        rw [List.length_reverse]
    _ ≤ (l.dropWhile isPyWhitespace).reverse.length :=
        (List.dropWhile_sublist isPyWhitespace).length_le
    _ = (l.dropWhile isPyWhitespace).length := by rw [List.length_reverse]
    _ ≤ l.length := (List.dropWhile_sublist isPyWhitespace).length_le

/-- The trimmed 50-character prefix transform has length at most 50. -/
theorem previewBase_length_le (text : String) : (previewBase text).length ≤ 50 := by
  show (pyStrip _).length ≤ 50
  refine le_trans (pyStrip_length_le _) ?_
  rw [List.length_map, List.length_take]
  exact min_le_left _ _

/-- The preview computation never exceeds 53 characters. -/
theorem computePreview_length_le (text : String) :
    (computePreview text).length ≤ 53 := by
  unfold computePreview
  split
  · rw [String.length_append]
    have h1 := previewBase_length_le text
    have h2 : ("...").length = 3 := rfl
    omega
  · exact le_trans (previewBase_length_le text) (by norm_num)

end Lemmas


section StoreLemmas

open HistoryManager

/-- With a nonnegative cap, trimming always leaves at most `max_entries`
records. -/
theorem saveTrim_length_le (max_entries : Int) (l : List TranscriptionRecord)
    (h : 0 ≤ max_entries) :
    ((saveTrim max_entries l).length : Int) ≤ max_entries := by
  simp only [saveTrim, pySliceTake, if_pos h]
  split
  · rw [List.length_take]
    have ht := Int.toNat_of_nonneg h
    have := Nat.min_le_left max_entries.toNat l.length
    omega
  · omega

/-- Trimming does nothing when the list already fits the cap. -/
theorem saveTrim_of_le (max_entries : Int) (l : List TranscriptionRecord)
    (h : (l.length : Int) ≤ max_entries) : saveTrim max_entries l = l := by
  unfold saveTrim
  rw [if_neg (by omega)]

/-- With a positive cap, trimming a nonempty list keeps its head. -/
theorem saveTrim_head (max_entries : Int) (r : TranscriptionRecord)
    (l : List TranscriptionRecord) (h : 0 < max_entries) :
    (saveTrim max_entries (r :: l)).head? = some r := by
  simp only [saveTrim, pySliceTake, if_pos (le_of_lt h)]
  split
  · obtain ⟨k, hk⟩ : ∃ k, max_entries.toNat = k + 1 := by
      have := Int.toNat_of_nonneg (le_of_lt h)
      exact ⟨max_entries.toNat - 1, by omega⟩
    rw [hk, List.take_succ_cons, List.head?_cons]
  · rw [List.head?_cons]

/-- `save` leaves the new record at the front of the store. -/
theorem save_head (st : HistoryManager) (text : String)
    (file_names : List String) (model freshId timestamp : String)
    (h : 0 < st.max_entries) :
    ((st.save text file_names model freshId timestamp).2.1.get_all).head? =
      some (st.save text file_names model freshId timestamp).1 :=
  saveTrim_head st.max_entries _ st.history h

/-- `removeFirst` yields `none` exactly when no record's id matches. -/
theorem removeFirst_eq_none_iff (record_id : String)
    (l : List TranscriptionRecord) :
    removeFirst record_id l = none ↔
      ∀ r ∈ l, idMatches r record_id = false := by
  induction l with
  | nil => simp [removeFirst]
  | cons r rest ih =>
    simp only [removeFirst]
    cases hmatch : idMatches r record_id with
    | true => simp [hmatch]
    | false =>
      rw [if_neg (by simp [hmatch]), Option.map_eq_none', ih]
      constructor
      · intro hall x hx
        rcases List.mem_cons.mp hx with rfl | hx'
        · exact hmatch
        · exact hall x hx'
      · intro hall x hx
        exact hall x (List.mem_cons_of_mem _ hx)

/-- Removing from a list whose first match is `r` drops exactly `r`. -/
theorem removeFirst_append (record_id : String)
    (pre post : List TranscriptionRecord) (r : TranscriptionRecord)
    (hpre : ∀ x ∈ pre, idMatches x record_id = false)
    (hr : idMatches r record_id = true) :
    removeFirst record_id (pre ++ r :: post) = some (pre ++ post) := by
  induction pre with
  | nil => simp [removeFirst, hr]
  | cons x rest ih =>
    have hx : idMatches x record_id = false := hpre x (by simp)
    rw [List.cons_append]
    simp only [removeFirst, hx, Bool.false_eq_true, if_false]
    show (removeFirst record_id (rest ++ r :: post)).map (x :: ·) =
      some (x :: (rest ++ post))
    rw [ih (fun y hy => hpre y (by simp [hy]))]
    rfl

/-- Removing a record shortens the list by one. -/
theorem removeFirst_length (record_id : String)
    (l h : List TranscriptionRecord)
    (hsome : removeFirst record_id l = some h) :
    h.length + 1 = l.length := by
  induction l generalizing h with
  | nil => simp [removeFirst] at hsome
  | cons r rest ih =>
    cases hmatch : idMatches r record_id with
    | true =>
      simp only [removeFirst, hmatch, if_true, Option.some_inj] at hsome
      subst hsome
      simp
    | false =>
      simp only [removeFirst, hmatch, Bool.false_eq_true, if_false] at hsome
      cases hrec : removeFirst record_id rest with
      | none => rw [hrec] at hsome; simp at hsome
      | some h' =>
        rw [hrec] at hsome
        simp at hsome
        have := ih h' hrec
        simp [← hsome, ← this]

end StoreLemmas

section LoadLemmas

/-- A serialized record reconstructs to itself, whatever `Json` values its
fields hold (the dataclass never checks field types). -/
theorem buildRecord_recordToJson (r : TranscriptionRecord) :
    buildRecord (recordToJson r) = some r := rfl

/-- A serialized history reconstructs to itself element by element. -/
theorem buildRecords_map (l : List TranscriptionRecord) :
    buildRecords (l.map recordToJson) = some l := by
  induction l with
  | nil => rfl
  | cons r rest ih =>
    simp only [List.map_cons, buildRecords, buildRecord_recordToJson, ih]

/-- Loading a file that holds a serialized history restores it exactly. -/
theorem loadHistory_serializeHistory (l : List TranscriptionRecord) :
    loadHistory (.content (serializeHistory l)) = l := by
  simp only [serializeHistory, loadHistory, buildRecords_map]

/-- A required field that is absent makes reconstruction fail with
`TypeError` (missing keyword argument). -/
theorem buildRecord_missing_field (fields : List (String × Json))
    (key : String) (hkey : key ∈ recordFieldNames)
    (hnone : lookupField key fields = none) :
    buildRecord (Json.obj fields) = none := by
  simp only [buildRecord]
  split <;>
    first
      | rfl
      | (exfalso
         simp [recordFieldNames] at hkey
         rcases hkey with rfl | rfl | rfl | rfl | rfl | rfl | rfl <;> simp_all)

/-- One failing element makes the whole load fail. -/
theorem buildRecords_of_mem_none (elems : List Json) (j : Json)
    (hj : j ∈ elems) (hnone : buildRecord j = none) :
    buildRecords elems = none := by
  induction elems with
  | nil => simp at hj
  | cons x rest ih =>
    rcases List.mem_cons.mp hj with rfl | hx
    · simp [buildRecords, hnone]
    · unfold buildRecords
      rw [ih hx]
      cases buildRecord x <;> rfl

end LoadLemmas

section Claims

open HistoryManager

/-- C2: for text of length ≤ 50 the preview is the transformed text
(newlines to spaces, stripped, no ellipsis); for longer text the
3-character ellipsis is appended to the transformed 50-character prefix,
making the preview 3 characters longer than that prefix (at most 53 — not
always exactly 53, since stripping may shorten the prefix); in all cases
the preview has at most 53 characters. -/
theorem C2_preview (text : String) (file_names : List String)
    (model freshId timestamp : String) :
    (TranscriptionRecord.create text file_names model freshId
        timestamp).preview = Json.str (computePreview text) ∧
    (text.length ≤ 50 → computePreview text = previewBase text) ∧
    (text.length > 50 →
      computePreview text = previewBase text ++ "..." ∧
      (computePreview text).length = (previewBase text).length + 3) ∧
    (computePreview text).length ≤ 53 := by
  refine ⟨rfl, ?_, ?_, computePreview_length_le text⟩
  · intro h
    unfold computePreview
    rw [if_neg (by omega)]
  · intro h
    unfold computePreview
    rw [if_pos h]
    refine ⟨rfl, ?_⟩
    rw [String.length_append]
    rfl

/-- C2 witness: the short text `hello` keeps its preview verbatim. -/
theorem C2_preview_witness :
    ("hello").length ≤ 50 ∧ computePreview "hello" = previewBase "hello" :=
  ⟨by decide, (C2_preview "hello" [] "base" "id0" "ts0").2.1 (by decide)⟩

/-- C2 counterexample: a 51-character text of 50 spaces and an `x` has a
3-character preview, not a 53-character one, because stripping empties
the 50-character prefix before the ellipsis is appended. -/
theorem C2_counterexample :
    (String.mk (List.replicate 50 ' ') ++ "x").length > 50 ∧
    (TranscriptionRecord.create (String.mk (List.replicate 50 ' ') ++ "x")
        [] "base" "id0" "ts0").preview = Json.str "..." ∧
    ("...").length ≠ 53 :=
  ⟨by decide, rfl, by decide⟩

/-- C7: `time_ago` buckets by elapsed seconds — below 60 seconds
`just now`, below an hour floored minutes, below a day floored hours,
otherwise floored days. -/
theorem C7_time_ago (s : ℚ) (hs : 0 ≤ s) :
    (s < 60 → timeAgo s = "just now") ∧
    (60 ≤ s → s < 3600 → timeAgo s = toString (⌊s / 60⌋) ++ "m ago") ∧
    (3600 ≤ s → s < 86400 → timeAgo s = toString (⌊s / 3600⌋) ++ "h ago") ∧
    (86400 ≤ s → timeAgo s = toString (⌊s / 86400⌋) ++ "d ago") := by
  have trunc_eq : ∀ q : ℚ, 0 ≤ q → pyIntTrunc q = ⌊q⌋ := fun q hq => if_pos hq
  refine ⟨?_, ?_, ?_, ?_⟩
  · intro h
    unfold timeAgo
    rw [if_pos h]
  · intro h1 h2
    unfold timeAgo
    rw [if_neg (by linarith), if_pos h2,
      trunc_eq _ (div_nonneg hs (by norm_num))]
  · intro h1 h2
    unfold timeAgo
    rw [if_neg (by linarith), if_neg (by linarith), if_pos h2,
      trunc_eq _ (div_nonneg hs (by norm_num))]
  · intro h1
    unfold timeAgo
    rw [if_neg (by linarith), if_neg (by linarith), if_neg (by linarith),
      trunc_eq _ (div_nonneg hs (by norm_num))]

/-- C7 witness: 300 seconds ago falls in the minutes bucket. -/
theorem C7_time_ago_witness :
    0 ≤ (300 : ℚ) ∧ (300 : ℚ) < 3600 ∧
    timeAgo 300 = toString (⌊(300 : ℚ) / 60⌋) ++ "m ago" :=
  ⟨by norm_num, by norm_num,
   (C7_time_ago 300 (by norm_num)).2.1 (by norm_num) (by norm_num)⟩

/-- C10: an empty file list short-circuits to the empty string before
the supported-format filter, so no `no usable input` error is raised. -/
theorem C10_empty_input (engine : AudioFile → String) :
    transcribe_files engine [] = Except.ok "" ∧
    transcribe_files engine [] ≠
      Except.error "No supported audio files provided" :=
  ⟨rfl, fun h => Except.noConfusion ((rfl : transcribe_files engine [] =
    Except.ok "") ▸ h)⟩

end Claims

section ClaimsTranscriber

/-- C8 (amended): with a NONEMPTY file list none of whose entries has a
supported extension, `transcribe_files` raises the `no usable input`
error; with more than one usable file it returns the per-file stripped
results joined by a blank line.  (The empty list bypasses the check and
returns the empty string, see the counterexample.) -/
theorem C8_transcribe (engine : AudioFile → String)
    (file_paths : List AudioFile) :
    (file_paths ≠ [] → (∀ f ∈ file_paths, is_supported_format f = false) →
      transcribe_files engine file_paths =
        Except.error "No supported audio files provided") ∧
    (2 ≤ (file_paths.filter is_supported_format).length →
      transcribe_files engine file_paths =
        Except.ok (String.intercalate "\n\n"
          ((file_paths.filter is_supported_format).map
            (fun f => pyStripStr (engine f))))) := by
  constructor
  · intro hne hall
    unfold transcribe_files
    rw [if_neg (by simpa using hne)]
    have hfil : file_paths.filter is_supported_format = [] := by
      rw [List.filter_eq_nil_iff]
      intro a ha
      simp [hall a ha]
    rw [if_pos (by simp [hfil])]
  · intro h2
    have hfil : ¬ (file_paths.filter is_supported_format).isEmpty = true := by
      cases hf : file_paths.filter is_supported_format with
      | nil => rw [hf] at h2; simp at h2
      | cons a l => simp
    have hne : ¬ file_paths.isEmpty = true := by
      cases hp : file_paths with
      | nil => subst hp; simp at hfil
      | cons a l => simp
    unfold transcribe_files
    rw [if_neg hne, if_neg hfil, if_neg (by rw [List.length_map]; omega)]

/-- C8 witness: one unsupported `.txt` file triggers the error; two
usable files come back joined by a blank line. -/
theorem C8_transcribe_witness :
    transcribe_files (fun f => f.name) [⟨"a.txt", ".txt"⟩] =
      Except.error "No supported audio files provided" ∧
    transcribe_files (fun f => f.name)
        [⟨"a.wav", ".wav"⟩, ⟨"b.mp3", ".mp3"⟩] =
      Except.ok (String.intercalate "\n\n"
        (([⟨"a.wav", ".wav"⟩, ⟨"b.mp3", ".mp3"⟩].filter
            is_supported_format).map
          (fun f => pyStripStr ((fun g : AudioFile => g.name) f)))) :=
  ⟨(C8_transcribe (fun f => f.name) [⟨"a.txt", ".txt"⟩]).1 (by simp)
      (by decide),
   (C8_transcribe (fun f => f.name)
      [⟨"a.wav", ".wav"⟩, ⟨"b.mp3", ".mp3"⟩]).2 (by decide)⟩

/-- C8 counterexample: the empty list has no usable file, yet
`transcribe_files` returns the empty string instead of the `no usable
input` error. -/
theorem C8_counterexample :
    List.filter is_supported_format ([] : List AudioFile) = [] ∧
    transcribe_files (fun f => f.name) [] = Except.ok "" ∧
    transcribe_files (fun f => f.name) [] ≠
      Except.error "No supported audio files provided" :=
  ⟨rfl, rfl, fun h => Except.noConfusion
    ((rfl : transcribe_files (fun f : AudioFile => f.name) [] =
      Except.ok "") ▸ h)⟩

end ClaimsTranscriber

section ClaimsStore

open HistoryManager

/-- C4: the record a `save` returns sits at index 0 of `get_all` (for
the spec's positive caps), and saving A then B then C into an empty
store with cap at least 3 yields `[C, B, A]`. -/
theorem C4_recency :
    (∀ (st : HistoryManager) (text : String) (file_names : List String)
        (model freshId timestamp : String), 0 < st.max_entries →
      ((st.save text file_names model freshId timestamp).2.1.get_all).head?
        = some (st.save text file_names model freshId timestamp).1) ∧
    (∀ (st : HistoryManager), st.history = [] → 3 ≤ st.max_entries →
      ∀ tA fnA mA iA sA tB fnB mB iB sB tC fnC mC iC sC,
        ((((st.save tA fnA mA iA sA).2.1.save tB fnB mB iB sB).2.1.save
            tC fnC mC iC sC).2.1.get_all) =
          [TranscriptionRecord.create tC fnC mC iC sC,
           TranscriptionRecord.create tB fnB mB iB sB,
           TranscriptionRecord.create tA fnA mA iA sA]) := by
  constructor
  · intro st text file_names model freshId timestamp h
    exact save_head st text file_names model freshId timestamp h
  · intro st h0 hmax tA fnA mA iA sA tB fnB mB iB sB tC fnC mC iC sC
    have e1 : (st.save tA fnA mA iA sA).2.1.history =
        [TranscriptionRecord.create tA fnA mA iA sA] := by
      show saveTrim st.max_entries _ = _
      rw [h0]
      exact saveTrim_of_le _ _ (by simp; omega)
    have e2 : ((st.save tA fnA mA iA sA).2.1.save tB fnB mB iB sB).2.1.history =
        [TranscriptionRecord.create tB fnB mB iB sB,
         TranscriptionRecord.create tA fnA mA iA sA] := by
      show saveTrim st.max_entries _ = _
      rw [e1]
      exact saveTrim_of_le _ _ (by simp; omega)
    show saveTrim st.max_entries _ = _
    rw [e2]
    exact saveTrim_of_le _ _ (by simp; omega)

/-- C4 witness: a concrete save into an empty store with cap 5 leaves
the new record at index 0. -/
theorem C4_recency_witness :
    (((HistoryManager.mk 5 [] .missing).save "t" [] "base" "i"
        "s").2.1.get_all).head? =
      some ((HistoryManager.mk 5 [] .missing).save "t" [] "base" "i" "s").1 :=
  C4_recency.1 (HistoryManager.mk 5 [] .missing) "t" [] "base" "i" "s"
    (by decide)

end ClaimsStore

section ClaimsBounded

open HistoryManager

/-- C1 (amended): with a positive cap, `save` and `clear` leave at most
`max_entries` records unconditionally, and `delete` preserves the bound
whenever it held before the call (so the invariant holds for every store
whose initial load was within the bound — it can fail after `delete` on
a store loaded from an oversized pre-existing file, see the
counterexample).  Saving 10 records with cap 5 leaves exactly 5, the
newest being the 10th saved. -/
theorem C1_bounded :
    (∀ (st : HistoryManager) (text : String) (file_names : List String)
        (model freshId timestamp : String), 0 < st.max_entries →
      (((st.save text file_names model freshId
          timestamp).2.1.history.length : Int)) ≤ st.max_entries) ∧
    (∀ (st : HistoryManager) (record_id : String), 0 < st.max_entries →
      (st.history.length : Int) ≤ st.max_entries →
      (((st.delete record_id).2.1.history.length : Int)) ≤ st.max_entries) ∧
    (∀ (st : HistoryManager), 0 < st.max_entries →
      ((st.clear.1.history.length : Int)) ≤ st.max_entries) ∧
    ((exampleSaves 10).size = 5 ∧
      (exampleSaves 10).get_all.head? =
        some (TranscriptionRecord.create "text10" ["file10"] "base" "id10"
          "ts10")) := by
  refine ⟨?_, ?_, ?_, by decide, rfl⟩
  · intro st text file_names model freshId timestamp h
    exact saveTrim_length_le st.max_entries _ (le_of_lt h)
  · intro st record_id h hle
    cases hrec : removeFirst record_id st.history with
    | none => simpa [HistoryManager.delete, hrec] using hle
    | some h' =>
      have hlen := removeFirst_length record_id st.history h' hrec
      simp only [HistoryManager.delete, hrec]
      omega
  · intro st h
    simp only [HistoryManager.clear, List.length_nil]
    omega

/-- C1 witness: a concrete save into an empty store with cap 5 keeps at
most 5 records. -/
theorem C1_bounded_witness :
    (((HistoryManager.mk 5 [] .missing).save "t" [] "base" "i"
        "s").2.1.history.length : Int) ≤ 5 :=
  C1_bounded.1 (HistoryManager.mk 5 [] .missing) "t" [] "base" "i" "s"
    (by decide)

/-- C1 counterexample: a store built with cap 1 over a pre-existing file
of three records still has two records — more than `max_entries` — after
a `delete` returns. -/
theorem C1_counterexample :
    0 < oversizedStore.max_entries ∧
    oversizedStore.history.length = 3 ∧
    ¬ (((oversizedStore.delete "id1").2.1.history.length : Int) ≤
        (oversizedStore.delete "id1").2.1.max_entries) :=
  ⟨by decide, by decide, by decide⟩

end ClaimsBounded

section ClaimsPersist

open HistoryManager

/-- C5: a record saved through one store is found, with all seven field
values identical, in `get_all()` of a fresh store constructed over the
file the first store wrote (positive cap on the saving store, any cap on
the fresh one). -/
theorem C5_roundtrip (st : HistoryManager) (text : String)
    (file_names : List String) (model freshId timestamp : String)
    (max2 : Int) (h : 0 < st.max_entries) :
    ∃ r ∈ (HistoryManager.init max2
        ((st.save text file_names model freshId timestamp).2.1.file)).get_all,
      r.id = (st.save text file_names model freshId timestamp).1.id ∧
      r.text = (st.save text file_names model freshId timestamp).1.text ∧
      r.preview = (st.save text file_names model freshId timestamp).1.preview ∧
      r.file_names =
        (st.save text file_names model freshId timestamp).1.file_names ∧
      r.file_count =
        (st.save text file_names model freshId timestamp).1.file_count ∧
      r.model = (st.save text file_names model freshId timestamp).1.model ∧
      r.timestamp =
        (st.save text file_names model freshId timestamp).1.timestamp := by
  refine ⟨(st.save text file_names model freshId timestamp).1, ?_,
    rfl, rfl, rfl, rfl, rfl, rfl, rfl⟩
  have hload : (HistoryManager.init max2
      ((st.save text file_names model freshId timestamp).2.1.file)).get_all =
      (st.save text file_names model freshId timestamp).2.1.history := by
    show loadHistory (.content (serializeHistory _)) = _
    exact loadHistory_serializeHistory _
  rw [hload]
  exact List.mem_of_mem_head?
    (save_head st text file_names model freshId timestamp h)

/-- C5 witness: a concrete record survives the disk round trip. -/
theorem C5_roundtrip_witness :
    0 < (HistoryManager.mk 5 [] .missing).max_entries ∧
    ∃ r ∈ (HistoryManager.init 10
        (((HistoryManager.mk 5 [] .missing).save "t" ["f"] "base" "i"
          "s").2.1.file)).get_all,
      r.id = ((HistoryManager.mk 5 [] .missing).save "t" ["f"] "base" "i"
        "s").1.id ∧
      r.text = ((HistoryManager.mk 5 [] .missing).save "t" ["f"] "base" "i"
        "s").1.text ∧
      r.preview = ((HistoryManager.mk 5 [] .missing).save "t" ["f"] "base"
        "i" "s").1.preview ∧
      r.file_names = ((HistoryManager.mk 5 [] .missing).save "t" ["f"]
        "base" "i" "s").1.file_names ∧
      r.file_count = ((HistoryManager.mk 5 [] .missing).save "t" ["f"]
        "base" "i" "s").1.file_count ∧
      r.model = ((HistoryManager.mk 5 [] .missing).save "t" ["f"] "base"
        "i" "s").1.model ∧
      r.timestamp = ((HistoryManager.mk 5 [] .missing).save "t" ["f"]
        "base" "i" "s").1.timestamp :=
  ⟨by decide,
   C5_roundtrip (HistoryManager.mk 5 [] .missing) "t" ["f"] "base" "i" "s"
     10 (by decide)⟩

/-- C6: `delete` removes exactly the first record whose id matches and
persists the shortened list, returning `true`; with no matching record
it returns `false` and leaves the store untouched. -/
theorem C6_delete (st : HistoryManager) (record_id : String) :
    (∀ pre r post, st.history = pre ++ r :: post →
      (∀ x ∈ pre, idMatches x record_id = false) →
      idMatches r record_id = true →
      st.delete record_id =
        (true,
         { st with
           history := pre ++ post,
           file := .content (serializeHistory (pre ++ post)) },
         [serializeHistory (pre ++ post)])) ∧
    ((∀ r ∈ st.history, idMatches r record_id = false) →
      st.delete record_id = (false, st, [])) := by
  constructor
  · intro pre r post hhist hpre hr
    have hrem : removeFirst record_id st.history = some (pre ++ post) := by
      rw [hhist]
      exact removeFirst_append record_id pre post r hpre hr
    simp [HistoryManager.delete, hrem]
  · intro habs
    have hrem : removeFirst record_id st.history = none :=
      (removeFirst_eq_none_iff record_id st.history).mpr habs
    simp [HistoryManager.delete, hrem]

/-- C6 witness: deleting the only record succeeds; deleting an unknown
id from an empty store reports `false` and changes nothing. -/
theorem C6_delete_witness :
    (HistoryManager.mk 5 sampleRecords .missing).delete "id1" =
      (true,
       { (HistoryManager.mk 5 sampleRecords .missing) with
           history := [] ++ sampleRecords.tail,
           file := .content (serializeHistory ([] ++ sampleRecords.tail)) },
       [serializeHistory ([] ++ sampleRecords.tail)]) ∧
    (HistoryManager.mk 5 [] .missing).delete "nope" =
      (false, HistoryManager.mk 5 [] .missing, []) :=
  ⟨(C6_delete (HistoryManager.mk 5 sampleRecords .missing) "id1").1
      [] (sampleRecords.headD (TranscriptionRecord.create "a" [] "base"
        "id1" "ts1")) sampleRecords.tail rfl (by simp) (by decide),
   (C6_delete (HistoryManager.mk 5 [] .missing) "nope").2 (by simp)⟩

/-- C9: deleting an id that matches no record performs no file write at
all — the write log is empty and the stored file is the same value as
before the call. -/
theorem C9_delete_absent_no_write (st : HistoryManager) (record_id : String)
    (habs : ∀ r ∈ st.history, idMatches r record_id = false) :
    (st.delete record_id).2.2 = [] ∧
    (st.delete record_id).2.1.file = st.file := by
  have hrem : removeFirst record_id st.history = none :=
    (removeFirst_eq_none_iff record_id st.history).mpr habs
  constructor <;> simp [HistoryManager.delete, hrem]

/-- C9 witness: deleting an unknown id from a store with one record
writes nothing. -/
theorem C9_delete_absent_no_write_witness :
    ((HistoryManager.mk 5 sampleRecords .missing).delete "nope").2.2 = [] ∧
    ((HistoryManager.mk 5 sampleRecords .missing).delete
      "nope").2.1.file = FileState.missing :=
  C9_delete_absent_no_write (HistoryManager.mk 5 sampleRecords .missing)
    "nope" (by decide)

end ClaimsPersist

section ClaimsRecovery

/-- C3 (amended): construction recovers with an empty history from an
unparseable file, from any non-array top-level shape, and from an array
holding an object that lacks a required field; but a required field that
IS present with a wrong type does not trigger recovery — the record is
reconstructed carrying the mistyped value unchanged (the dataclass never
checks field types, see the counterexample). -/
theorem C3_corruption_recovery :
    loadHistory .garbage = [] ∧
    loadHistory .missing = [] ∧
    (∀ fields, loadHistory (.content (.obj fields)) = []) ∧
    (∀ s, loadHistory (.content (.str s)) = []) ∧
    (∀ n, loadHistory (.content (.num n)) = []) ∧
    (∀ b, loadHistory (.content (.bool b)) = []) ∧
    loadHistory (.content .null) = [] ∧
    (∀ elems fields key, Json.obj fields ∈ elems → key ∈ recordFieldNames →
      lookupField key fields = none →
      loadHistory (.content (.arr elems)) = []) ∧
    (∀ i t p fn fc m ts, buildRecord (recordToJson ⟨i, t, p, fn, fc, m, ts⟩)
      = some ⟨i, t, p, fn, fc, m, ts⟩) := by
  refine ⟨rfl, rfl, fun _ => rfl, fun _ => rfl, fun _ => rfl, fun _ => rfl,
    rfl, ?_, fun _ _ _ _ _ _ _ => rfl⟩
  intro elems fields key hmem hkey hnone
  have hb : buildRecord (Json.obj fields) = none :=
    buildRecord_missing_field fields key hkey hnone
  have hs : buildRecords elems = none :=
    buildRecords_of_mem_none elems (Json.obj fields) hmem hb
  simp [loadHistory, hs]

/-- C3 witness: a file holding one record object with no fields at all
loads as the empty history. -/
theorem C3_corruption_recovery_witness :
    Json.obj [] ∈ [Json.obj []] ∧ "id" ∈ recordFieldNames ∧
    loadHistory (.content (.arr [Json.obj []])) = [] :=
  ⟨by simp, by simp [recordFieldNames],
   C3_corruption_recovery.2.2.2.2.2.2.2.1 [Json.obj []] [] "id" (by simp)
     (by simp [recordFieldNames]) rfl⟩

/-- C3 counterexample: a stored record whose `id` is the number 5 — a
mistyped required field — does NOT yield an empty history: construction
builds one record, carrying the non-string id. -/
theorem C3_counterexample :
    (loadHistory (.content (.arr [mistypedRecordJson]))).length = 1 ∧
    (loadHistory (.content (.arr [mistypedRecordJson]))).head? =
      some ⟨.num 5, .str "x", .str "x", .arr [], .num 0, .str "base",
        .str "ts"⟩ :=
  ⟨by decide, rfl⟩

end ClaimsRecovery
